import Mathlib

/-!
Verification of the Intcode interpreter variants of this repository
(day02: add/multiply machine; day05: parameter modes and input/output;
day07: suspend/resume machine for amplifier chains).

The Rust sources are embedded shallowly:
- machine integers `i64` become `Int`; every `as usize` cast is modelled by
  `toUsize` (reduction modulo `2 ^ 64`, the two's-complement reinterpretation);
- fallible Rust functions returning `Result<_, MachineError>` become
  `Except Fault _`, where `Fault.err` carries a `MachineError` value and
  `Fault.panicked` models a Rust panic (`unimplemented!`, `Vec::remove` on an
  empty vector, raw slice indexing out of range);
- the unbounded `loop` in `IntMachine::run` becomes a fuel-indexed recursion
  returning `none` when the fuel is exhausted.
-/

/-- The Rust `as usize` cast applied to an `i64` value: two's-complement
reinterpretation, i.e. reduction modulo `2 ^ 64`. -/
def toUsize (v : Int) : Nat := (v % (2 : Int) ^ 64).toNat

/-- The ways the Rust code can panic (abort without returning a `Result`). -/
inductive PanicKind where
  | removeEmpty
  | unimplementedMode
  | indexOutOfBounds
deriving DecidableEq, Repr

/-- The `MachineError` enum shared (up to the payload type of
`InvalidInstruction`) by day02, day05 and day07. -/
inductive MachineError where
  | exiting
  | invalidInstruction (raw : Nat)
  | outOfBound (pos : Nat)
deriving DecidableEq, Repr

/-- Outcome of a fallible operation: either a value of the `MachineError` enum
(returned through `Result`), or a panic. -/
inductive Fault where
  | err (e : MachineError)
  | panicked (p : PanicKind)
deriving DecidableEq, Repr

/-- Decidable equality for `Except`, needed to evaluate machine results by
`decide` in the concrete theorems below. -/
instance {e a : Type} [DecidableEq e] [DecidableEq a] : DecidableEq (Except e a) := fun x y =>
  match x, y with
  | .ok v, .ok w =>
    if h : v = w then .isTrue (by rw [h]) else .isFalse (by intro hc; cases hc; exact h rfl)
  | .error v, .error w =>
    if h : v = w then .isTrue (by rw [h]) else .isFalse (by intro hc; cases hc; exact h rfl)
  | .ok v, .error w => .isFalse (by intro hc; cases hc)
  | .error v, .ok w => .isFalse (by intro hc; cases hc)


namespace Day05

/-- `ParameterMode` from day05. -/
inductive ParameterMode where
  | position
  | immediate
deriving DecidableEq, Repr

/-- `ParameterMode::from_opcode`: digit `position` of `opcode / 100`; any
digit other than `0` or `1` hits `unimplemented!()`, a panic. -/
def ParameterMode.from_opcode (opcode position : Nat) : Except Fault ParameterMode :=
  match (opcode / 10 ^ (position + 2)) % 10 with
  | 0 => .ok .position
  | 1 => .ok .immediate
  | _ => .error (.panicked .unimplementedMode)

/-- The nine operation kinds of day05's `InstructionType`. -/
inductive InstructionType where
  | addition
  | multiplication
  | input
  | output
  | jumpIfTrue
  | jumpIfFalse
  | lessThan
  | equals
  | exit
deriving DecidableEq, Repr

/-- `InstructionType::from_opcode`: dispatch on `opcode % 100`. -/
def InstructionType.from_opcode (opcode : Nat) : Except Fault InstructionType :=
  match opcode % 100 with
  | 1 => .ok .addition
  | 2 => .ok .multiplication
  | 3 => .ok .input
  | 4 => .ok .output
  | 5 => .ok .jumpIfTrue
  | 6 => .ok .jumpIfFalse
  | 7 => .ok .lessThan
  | 8 => .ok .equals
  | 99 => .ok .exit
  | _ => .error (.err (.invalidInstruction opcode))

/-- `InstructionType::arguments_count`. -/
def InstructionType.arguments_count : InstructionType → Nat
  | .addition => 3
  | .multiplication => 3
  | .input => 1
  | .output => 1
  | .jumpIfTrue => 2
  | .jumpIfFalse => 2
  | .lessThan => 3
  | .equals => 3
  | .exit => 0

/-- `InstructionType::code_size`. -/
def InstructionType.code_size (t : InstructionType) : Nat := t.arguments_count + 1

/-- The day05 `IntMachine` struct: instruction pointer, memory, the single
stored input value, and the emitted outputs. -/
structure IntMachine where
  ip : Nat
  ram : List Int
  input_value : Int
  output_values : List Int
deriving DecidableEq, Repr

/-- The `InstructionArgument` struct. -/
structure InstructionArgument where
  value : Int
  parameter_mode : ParameterMode
  argument_position : Nat
deriving DecidableEq, Repr

/-- `IntMachine::read_at_position`: bounds-checked read. -/
def IntMachine.read_at_position (m : IntMachine) (position : Nat) : Except Fault Int :=
  if m.ram.length ≤ position then .error (.err (.outOfBound position))
  else .ok (m.ram.getD position 0)

/-- `IntMachine::write_at_position`: bounds-checked write. -/
def IntMachine.write_at_position (m : IntMachine) (position : Nat) (value : Int) :
    Except Fault IntMachine :=
  if m.ram.length ≤ position then .error (.err (.outOfBound position))
  else .ok { m with ram := m.ram.set position value }

/-- `InstructionArgument::get_value`. -/
def InstructionArgument.get_value (a : InstructionArgument) (m : IntMachine) :
    Except Fault Int :=
  match a.parameter_mode with
  | .immediate => .ok a.value
  | .position => m.read_at_position (toUsize a.value)

/-- `InstructionArgument::write_value`: in immediate mode the write goes to the
absolute position of the argument cell itself; in position mode to the
argument's value cast to an address. -/
def InstructionArgument.write_value (a : InstructionArgument) (m : IntMachine)
    (value : Int) : Except Fault IntMachine :=
  match a.parameter_mode with
  | .immediate => m.write_at_position a.argument_position value
  | .position => m.write_at_position (toUsize a.value) value

/-- The address an `InstructionArgument` resolves to when used as a write
target (not part of the Rust source as a named function; it names the
address computed inside `write_value`). -/
def writeTarget (a : InstructionArgument) : Nat :=
  match a.parameter_mode with
  | .immediate => a.argument_position
  | .position => toUsize a.value

/-- The loop inside `InstructionType::arguments_configuration`: parameter
modes for argument positions `i, i+1, ...` while `count` arguments remain. -/
def readModes (opcode i count : Nat) : Except Fault (List ParameterMode) :=
  match count with
  | 0 => .ok []
  | c + 1 =>
    match ParameterMode.from_opcode opcode i with
    | .error f => .error f
    | .ok pm =>
      match readModes opcode (i + 1) c with
      | .error f => .error f
      | .ok rest => .ok (pm :: rest)

/-- `InstructionType::arguments_configuration`. -/
def InstructionType.arguments_configuration (t : InstructionType) (opcode : Nat) :
    Except Fault (List ParameterMode) :=
  readModes opcode 0 t.arguments_count

/-- The `InstructionContext` struct. -/
structure InstructionContext where
  instruction : InstructionType
  arguments : List InstructionArgument
deriving DecidableEq, Repr

/-- The loop inside `InstructionType::read_instruction`: reads the operand
cell at `ip + i + 1` for each configured parameter mode. -/
def readArgumentList (m : IntMachine) (i : Nat) :
    List ParameterMode → Except Fault (List InstructionArgument)
  | [] => .ok []
  | pm :: rest =>
    match m.read_at_position (m.ip + i + 1) with
    | .error f => .error f
    | .ok v =>
      match readArgumentList m (i + 1) rest with
      | .error f => .error f
      | .ok tail =>
        .ok ({ value := v, parameter_mode := pm, argument_position := m.ip + i + 1 } :: tail)

/-- `InstructionType::read_instruction` (the decoder): pure in the machine, it
reads the opcode cell and the operand cells and assembles an
`InstructionContext`. -/
def InstructionType.read_instruction (t : InstructionType) (m : IntMachine) :
    Except Fault InstructionContext :=
  match m.read_at_position m.ip with
  | .error f => .error f
  | .ok opcode =>
    match t.arguments_configuration (toUsize opcode) with
    | .error f => .error f
    | .ok config =>
      match readArgumentList m 0 config with
      | .error f => .error f
      | .ok args => .ok { instruction := t, arguments := args }

/-- `IntMachine::read_instruction`: bounds-checks the opcode cell, decodes, and
on success advances the instruction pointer by the code size; returns
`Err(Exiting)` on the halt opcode. -/
def IntMachine.read_instruction (m : IntMachine) :
    Except Fault (InstructionContext × IntMachine) :=
  if m.ram.length ≤ m.ip then .error (.err (.outOfBound m.ip))
  else
    match InstructionType.from_opcode (toUsize (m.ram.getD m.ip 0)) with
    | .error f => .error f
    | .ok instruction =>
      if instruction = .exit then .error (.err .exiting)
      else
        match instruction.read_instruction m with
        | .error f => .error f
        | .ok result => .ok (result, { m with ip := m.ip + result.instruction.code_size })

/-- `instruction_ctx.arguments[i]`: raw `Vec` indexing, which panics past the
end (in the source the index is always in range). -/
def argAt (ctx : InstructionContext) (i : Nat) : Except Fault InstructionArgument :=
  match ctx.arguments.get? i with
  | some a => .ok a
  | none => .error (.panicked .indexOutOfBounds)

/-- Result of one iteration of the `loop` in `IntMachine::run`. -/
inductive StepResult where
  | next (m : IntMachine)
  | halted (m : IntMachine)
deriving DecidableEq, Repr

/-- The three-argument write pattern shared by the addition, multiplication,
less-than and equals arms of `IntMachine::run`: read operands 0 and 1, write
`op` of them through operand 2. -/
def execWrite3 (ctx : InstructionContext) (m1 : IntMachine) (op : Int → Int → Int) :
    Except Fault IntMachine :=
  match argAt ctx 0 with
  | .error f => .error f
  | .ok a0 =>
    match a0.get_value m1 with
    | .error f => .error f
    | .ok value_a =>
      match argAt ctx 1 with
      | .error f => .error f
      | .ok a1 =>
        match a1.get_value m1 with
        | .error f => .error f
        | .ok value_b =>
          match argAt ctx 2 with
          | .error f => .error f
          | .ok a2 => a2.write_value m1 (op value_a value_b)

/-- The two-argument jump pattern of `IntMachine::run`: read operands 0 and 1,
overwrite the instruction pointer with operand 1 when `cond` holds of
operand 0. -/
def execJump (ctx : InstructionContext) (m1 : IntMachine) (cond : Int → Bool) :
    Except Fault IntMachine :=
  match argAt ctx 0 with
  | .error f => .error f
  | .ok a0 =>
    match a0.get_value m1 with
    | .error f => .error f
    | .ok value =>
      match argAt ctx 1 with
      | .error f => .error f
      | .ok a1 =>
        match a1.get_value m1 with
        | .error f => .error f
        | .ok new_ip =>
          .ok (if cond value then { m1 with ip := toUsize new_ip } else m1)

/-- The body of the `loop` in day05's `IntMachine::run`: decode, then execute
one instruction.  The `Exiting` signal from `read_instruction` is caught and
turned into `halted`. -/
def IntMachine.step (m : IntMachine) : Except Fault StepResult :=
  match m.read_instruction with
  | .error (.err .exiting) => .ok (.halted m)
  | .error f => .error f
  | .ok (ctx, m1) =>
    match ctx.instruction with
    | .addition =>
      match execWrite3 ctx m1 (fun a b => a + b) with
      | .error f => .error f
      | .ok m2 => .ok (.next m2)
    | .multiplication =>
      match execWrite3 ctx m1 (fun a b => a * b) with
      | .error f => .error f
      | .ok m2 => .ok (.next m2)
    | .input =>
      match argAt ctx 0 with
      | .error f => .error f
      | .ok a0 =>
        match a0.write_value m1 m1.input_value with
        | .error f => .error f
        | .ok m2 => .ok (.next m2)
    | .output =>
      match argAt ctx 0 with
      | .error f => .error f
      | .ok a0 =>
        match a0.get_value m1 with
        | .error f => .error f
        | .ok value => .ok (.next { m1 with output_values := m1.output_values ++ [value] })
    | .jumpIfTrue =>
      match execJump ctx m1 (fun value => value ≠ 0) with
      | .error f => .error f
      | .ok m2 => .ok (.next m2)
    | .jumpIfFalse =>
      match execJump ctx m1 (fun value => value = 0) with
      | .error f => .error f
      | .ok m2 => .ok (.next m2)
    | .lessThan =>
      match execWrite3 ctx m1 (fun a b => if a < b then 1 else 0) with
      | .error f => .error f
      | .ok m2 => .ok (.next m2)
    | .equals =>
      match execWrite3 ctx m1 (fun a b => if a = b then 1 else 0) with
      | .error f => .error f
      | .ok m2 => .ok (.next m2)
    | .exit => .ok (.halted m1)

/-- day05's `IntMachine::run(mut self, ram_dump)`, fuel-indexed: `none` means
the fuel ran out before the loop stopped. -/
def IntMachine.run (fuel : Nat) (m : IntMachine) (ram_dump : Bool) :
    Option (Except Fault (List Int)) :=
  match fuel with
  | 0 => none
  | f + 1 =>
    match m.step with
    | .error fa => some (.error fa)
    | .ok (.halted mh) => some (.ok (if ram_dump then mh.ram else mh.output_values))
    | .ok (.next m2) => IntMachine.run f m2 ram_dump

end Day05

namespace Day07

/-- `ParameterMode` from day07 (same code as day05). -/
inductive ParameterMode where
  | position
  | immediate
deriving DecidableEq, Repr

/-- `ParameterMode::from_opcode` (day07). -/
def ParameterMode.from_opcode (opcode position : Nat) : Except Fault ParameterMode :=
  match (opcode / 10 ^ (position + 2)) % 10 with
  | 0 => .ok .position
  | 1 => .ok .immediate
  | _ => .error (.panicked .unimplementedMode)

/-- The nine operation kinds of day07's `InstructionType`. -/
inductive InstructionType where
  | addition
  | multiplication
  | input
  | output
  | jumpIfTrue
  | jumpIfFalse
  | lessThan
  | equals
  | exit
deriving DecidableEq, Repr

/-- `InstructionType::from_opcode` (day07). -/
def InstructionType.from_opcode (opcode : Nat) : Except Fault InstructionType :=
  match opcode % 100 with
  | 1 => .ok .addition
  | 2 => .ok .multiplication
  | 3 => .ok .input
  | 4 => .ok .output
  | 5 => .ok .jumpIfTrue
  | 6 => .ok .jumpIfFalse
  | 7 => .ok .lessThan
  | 8 => .ok .equals
  | 99 => .ok .exit
  | _ => .error (.err (.invalidInstruction opcode))

/-- `InstructionType::arguments_count` (day07). -/
def InstructionType.arguments_count : InstructionType → Nat
  | .addition => 3
  | .multiplication => 3
  | .input => 1
  | .output => 1
  | .jumpIfTrue => 2
  | .jumpIfFalse => 2
  | .lessThan => 3
  | .equals => 3
  | .exit => 0

/-- `InstructionType::code_size` (day07). -/
def InstructionType.code_size (t : InstructionType) : Nat := t.arguments_count + 1

/-- day07's `IntMachine` struct: instruction pointer, memory, outputs.  It has
no input field: input values are a parameter of each `run` call. -/
structure IntMachine where
  ip : Nat
  ram : List Int
  output_values : List Int
deriving DecidableEq, Repr

/-- The `InstructionArgument` struct (day07). -/
structure InstructionArgument where
  value : Int
  parameter_mode : ParameterMode
  argument_position : Nat
deriving DecidableEq, Repr

/-- The `MachineReturn` enum of day07. -/
inductive MachineReturn where
  | output (value : Int)
  | exit (values : List Int)
deriving DecidableEq, Repr

/-- `IntMachine::read_at_position` (day07). -/
def IntMachine.read_at_position (m : IntMachine) (position : Nat) : Except Fault Int :=
  if m.ram.length ≤ position then .error (.err (.outOfBound position))
  else .ok (m.ram.getD position 0)

/-- `IntMachine::write_at_position` (day07). -/
def IntMachine.write_at_position (m : IntMachine) (position : Nat) (value : Int) :
    Except Fault IntMachine :=
  if m.ram.length ≤ position then .error (.err (.outOfBound position))
  else .ok { m with ram := m.ram.set position value }

/-- `InstructionArgument::get_value` (day07). -/
def InstructionArgument.get_value (a : InstructionArgument) (m : IntMachine) :
    Except Fault Int :=
  match a.parameter_mode with
  | .immediate => .ok a.value
  | .position => m.read_at_position (toUsize a.value)

/-- `InstructionArgument::write_value` (day07). -/
def InstructionArgument.write_value (a : InstructionArgument) (m : IntMachine)
    (value : Int) : Except Fault IntMachine :=
  match a.parameter_mode with
  | .immediate => m.write_at_position a.argument_position value
  | .position => m.write_at_position (toUsize a.value) value

/-- The write-target address of an argument (day07), as in `write_value`. -/
def writeTarget (a : InstructionArgument) : Nat :=
  match a.parameter_mode with
  | .immediate => a.argument_position
  | .position => toUsize a.value

/-- The loop inside `InstructionType::arguments_configuration` (day07). -/
def readModes (opcode i count : Nat) : Except Fault (List ParameterMode) :=
  match count with
  | 0 => .ok []
  | c + 1 =>
    match ParameterMode.from_opcode opcode i with
    | .error f => .error f
    | .ok pm =>
      match readModes opcode (i + 1) c with
      | .error f => .error f
      | .ok rest => .ok (pm :: rest)

/-- `InstructionType::arguments_configuration` (day07). -/
def InstructionType.arguments_configuration (t : InstructionType) (opcode : Nat) :
    Except Fault (List ParameterMode) :=
  readModes opcode 0 t.arguments_count

/-- The `InstructionContext` struct (day07). -/
structure InstructionContext where
  instruction : InstructionType
  arguments : List InstructionArgument
deriving DecidableEq, Repr

/-- The loop inside `InstructionType::read_instruction` (day07). -/
def readArgumentList (m : IntMachine) (i : Nat) :
    List ParameterMode → Except Fault (List InstructionArgument)
  | [] => .ok []
  | pm :: rest =>
    match m.read_at_position (m.ip + i + 1) with
    | .error f => .error f
    | .ok v =>
      match readArgumentList m (i + 1) rest with
      | .error f => .error f
      | .ok tail =>
        .ok ({ value := v, parameter_mode := pm, argument_position := m.ip + i + 1 } :: tail)

/-- `InstructionType::read_instruction` (day07, the decoder). -/
def InstructionType.read_instruction (t : InstructionType) (m : IntMachine) :
    Except Fault InstructionContext :=
  match m.read_at_position m.ip with
  | .error f => .error f
  | .ok opcode =>
    match t.arguments_configuration (toUsize opcode) with
    | .error f => .error f
    | .ok config =>
      match readArgumentList m 0 config with
      | .error f => .error f
      | .ok args => .ok { instruction := t, arguments := args }

/-- `IntMachine::read_instruction` (day07). -/
def IntMachine.read_instruction (m : IntMachine) :
    Except Fault (InstructionContext × IntMachine) :=
  if m.ram.length ≤ m.ip then .error (.err (.outOfBound m.ip))
  else
    match InstructionType.from_opcode (toUsize (m.ram.getD m.ip 0)) with
    | .error f => .error f
    | .ok instruction =>
      if instruction = .exit then .error (.err .exiting)
      else
        match instruction.read_instruction m with
        | .error f => .error f
        | .ok result => .ok (result, { m with ip := m.ip + result.instruction.code_size })

/-- `instruction_ctx.arguments[i]` (day07). -/
def argAt (ctx : InstructionContext) (i : Nat) : Except Fault InstructionArgument :=
  match ctx.arguments.get? i with
  | some a => .ok a
  | none => .error (.panicked .indexOutOfBounds)

/-- Result of one iteration of the `loop` in day07's `IntMachine::run`.
`produced` records a value appended to the outputs by a write-output
instruction; the remaining per-call input list is threaded through. -/
inductive StepResult where
  | next (m : IntMachine) (input_values : List Int)
  | produced (value : Int) (m : IntMachine) (input_values : List Int)
  | halted (m : IntMachine)
deriving DecidableEq, Repr

/-- Three-argument write pattern of day07's `IntMachine::run`. -/
def execWrite3 (ctx : InstructionContext) (m1 : IntMachine) (op : Int → Int → Int) :
    Except Fault IntMachine :=
  match argAt ctx 0 with
  | .error f => .error f
  | .ok a0 =>
    match a0.get_value m1 with
    | .error f => .error f
    | .ok value_a =>
      match argAt ctx 1 with
      | .error f => .error f
      | .ok a1 =>
        match a1.get_value m1 with
        | .error f => .error f
        | .ok value_b =>
          match argAt ctx 2 with
          | .error f => .error f
          | .ok a2 => a2.write_value m1 (op value_a value_b)

/-- Two-argument jump pattern of day07's `IntMachine::run`. -/
def execJump (ctx : InstructionContext) (m1 : IntMachine) (cond : Int → Bool) :
    Except Fault IntMachine :=
  match argAt ctx 0 with
  | .error f => .error f
  | .ok a0 =>
    match a0.get_value m1 with
    | .error f => .error f
    | .ok value =>
      match argAt ctx 1 with
      | .error f => .error f
      | .ok a1 =>
        match a1.get_value m1 with
        | .error f => .error f
        | .ok new_ip =>
          .ok (if cond value then { m1 with ip := toUsize new_ip } else m1)

/-- The body of the `loop` in day07's `IntMachine::run`.  A read-input
instruction takes `input_values.remove(0)`, which panics when the list is
empty; a write-output instruction appends to `output_values` and reports the
value through `produced`. -/
def IntMachine.step (m : IntMachine) (input_values : List Int) :
    Except Fault StepResult :=
  match m.read_instruction with
  | .error (.err .exiting) => .ok (.halted m)
  | .error f => .error f
  | .ok (ctx, m1) =>
    match ctx.instruction with
    | .addition =>
      match execWrite3 ctx m1 (fun a b => a + b) with
      | .error f => .error f
      | .ok m2 => .ok (.next m2 input_values)
    | .multiplication =>
      match execWrite3 ctx m1 (fun a b => a * b) with
      | .error f => .error f
      | .ok m2 => .ok (.next m2 input_values)
    | .input =>
      match input_values with
      | [] => .error (.panicked .removeEmpty)
      | v :: rest =>
        match argAt ctx 0 with
        | .error f => .error f
        | .ok a0 =>
          match a0.write_value m1 v with
          | .error f => .error f
          | .ok m2 => .ok (.next m2 rest)
    | .output =>
      match argAt ctx 0 with
      | .error f => .error f
      | .ok a0 =>
        match a0.get_value m1 with
        | .error f => .error f
        | .ok value =>
          .ok (.produced value { m1 with output_values := m1.output_values ++ [value] }
                input_values)
    | .jumpIfTrue =>
      match execJump ctx m1 (fun value => value ≠ 0) with
      | .error f => .error f
      | .ok m2 => .ok (.next m2 input_values)
    | .jumpIfFalse =>
      match execJump ctx m1 (fun value => value = 0) with
      | .error f => .error f
      | .ok m2 => .ok (.next m2 input_values)
    | .lessThan =>
      match execWrite3 ctx m1 (fun a b => if a < b then 1 else 0) with
      | .error f => .error f
      | .ok m2 => .ok (.next m2 input_values)
    | .equals =>
      match execWrite3 ctx m1 (fun a b => if a = b then 1 else 0) with
      | .error f => .error f
      | .ok m2 => .ok (.next m2 input_values)
    | .exit => .ok (.halted m1)

/-- day07's `IntMachine::run(&mut self, ram_dump, break_at_output,
input_values)`, fuel-indexed.  The mutated `self` is returned next to the
`MachineReturn` value; `none` means the fuel ran out. -/
def IntMachine.run (fuel : Nat) (m : IntMachine) (ram_dump break_at_output : Bool)
    (input_values : List Int) : Option (Except Fault (MachineReturn × IntMachine)) :=
  match fuel with
  | 0 => none
  | f + 1 =>
    match m.step input_values with
    | .error fa => some (.error fa)
    | .ok (.halted mh) =>
      some (.ok (.exit (if ram_dump then mh.ram else mh.output_values), mh))
    | .ok (.produced value m2 rest) =>
      if break_at_output then some (.ok (.output value, m2))
      else IntMachine.run f m2 ram_dump break_at_output rest
    | .ok (.next m2 rest) => IntMachine.run f m2 ram_dump break_at_output rest

/-- The repeated-call protocol of the suspend/resume spec sentence: call
`run(false, true, [])` up to `rounds` times on the same instance, collecting
each `Output(value)`, until the machine returns `Exit`.  Returns the
collected values and the final machine. -/
def collectOutputs (rounds fuel : Nat) (m : IntMachine) :
    Option (Except Fault (List Int × IntMachine)) :=
  match rounds with
  | 0 => none
  | r + 1 =>
    match IntMachine.run fuel m false true [] with
    | none => none
    | some (.error f) => some (.error f)
    | some (.ok (.output v, m1)) =>
      match collectOutputs r fuel m1 with
      | none => none
      | some (.error f) => some (.error f)
      | some (.ok (vs, mf)) => some (.ok (v :: vs, mf))
    | some (.ok (.exit _, m1)) => some (.ok ([], m1))

end Day07

namespace Day02

/-- day02's `IntMachine` struct (`u64` memory). -/
structure IntMachine where
  ip : Nat
  ram : List Nat
deriving DecidableEq, Repr

/-- The three operation kinds of day02's `InstructionType`. -/
inductive InstructionType where
  | addition
  | multiplication
  | exit
deriving DecidableEq, Repr

/-- `InstructionType::from_opcode` (day02): dispatch on the full value, with
no `% 100`. -/
def InstructionType.from_opcode (opcode : Nat) : Except Fault InstructionType :=
  match opcode with
  | 1 => .ok .addition
  | 2 => .ok .multiplication
  | 99 => .ok .exit
  | _ => .error (.err (.invalidInstruction opcode))

/-- The `InstructionContext` struct of day02: the two arguments are already
dereferenced at decode time. -/
structure InstructionContext where
  instruction : InstructionType
  argument0 : Nat
  argument1 : Nat
  result_position : Nat
deriving DecidableEq, Repr

/-- `IntMachine::read_at_position` (day02): bounds-checked read. -/
def IntMachine.read_at_position (m : IntMachine) (position : Nat) : Except Fault Nat :=
  if m.ram.length ≤ position then .error (.err (.outOfBound position))
  else .ok (m.ram.getD position 0)

/-- `IntMachine::read_instruction` (day02).  The two argument cells and their
targets go through the bounds-checked `read_at_position`, but the result
cell is read as `self.ram[self.ip + 3]`, a raw slice index that panics when
`ip + 3` is past the end of memory. -/
def IntMachine.read_instruction (m : IntMachine) :
    Except Fault (InstructionContext × IntMachine) :=
  if m.ram.length ≤ m.ip then .error (.err (.outOfBound m.ip))
  else
    match InstructionType.from_opcode (m.ram.getD m.ip 0) with
    | .error f => .error f
    | .ok instruction =>
      if instruction = .exit then .error (.err .exiting)
      else
        match m.read_at_position (m.ip + 1) with
        | .error f => .error f
        | .ok p0 =>
          match m.read_at_position p0 with
          | .error f => .error f
          | .ok a0 =>
            match m.read_at_position (m.ip + 2) with
            | .error f => .error f
            | .ok p1 =>
              match m.read_at_position p1 with
              | .error f => .error f
              | .ok a1 =>
                if m.ram.length ≤ m.ip + 3 then .error (.panicked .indexOutOfBounds)
                else
                  .ok ({ instruction := instruction, argument0 := a0, argument1 := a1,
                         result_position := m.ram.getD (m.ip + 3) 0 },
                       { m with ip := m.ip + 4 })

end Day02

theorem Day05.d5_write_at_position_ok {m : Day05.IntMachine} {p : Nat} {v : Int}
    {m' : Day05.IntMachine} (h : m.write_at_position p v = .ok m') :
    m' = { m with ram := m.ram.set p v } ∧ p < m.ram.length := by
  unfold Day05.IntMachine.write_at_position at h
  split at h
  · cases h
  · cases h
    exact ⟨rfl, by omega⟩

theorem Day05.d5_write_value_ok {a : Day05.InstructionArgument} {m : Day05.IntMachine} {v : Int}
    {m' : Day05.IntMachine} (h : a.write_value m v = .ok m') :
    m' = { m with ram := m.ram.set (Day05.writeTarget a) v } ∧
      Day05.writeTarget a < m.ram.length := by
  unfold Day05.InstructionArgument.write_value at h
  unfold Day05.writeTarget
  split at h <;> exact Day05.d5_write_at_position_ok h

theorem Day05.d5_argAt_err {ctx : Day05.InstructionContext} {i : Nat} {f : Fault}
    (h : Day05.argAt ctx i = .error f) : f = .panicked .indexOutOfBounds := by
  unfold Day05.argAt at h
  split at h
  · cases h
  · cases h
    rfl

theorem Day05.d5_argAt_exiting {ctx : Day05.InstructionContext} {i : Nat}
    (h : Day05.argAt ctx i = .error (.err .exiting)) : False := by
  cases Day05.d5_argAt_err h

theorem Day05.d5_get_value_err {a : Day05.InstructionArgument} {m : Day05.IntMachine} {f : Fault}
    (h : a.get_value m = .error f) : ∃ p, f = .err (.outOfBound p) := by
  unfold Day05.InstructionArgument.get_value at h
  split at h
  · cases h
  · unfold Day05.IntMachine.read_at_position at h
    split at h
    · cases h
      exact ⟨_, rfl⟩
    · cases h

theorem Day05.d5_get_value_exiting {a : Day05.InstructionArgument} {m : Day05.IntMachine}
    (h : a.get_value m = .error (.err .exiting)) : False := by
  rcases Day05.d5_get_value_err h with ⟨p, hp⟩
  cases hp

theorem Day05.d5_write_at_position_err {m : Day05.IntMachine} {p : Nat} {v : Int} {f : Fault}
    (h : m.write_at_position p v = .error f) :
    f = .err (.outOfBound p) ∧ m.ram.length ≤ p := by
  unfold Day05.IntMachine.write_at_position at h
  split at h
  · cases h
    exact ⟨rfl, by omega⟩
  · cases h

theorem Day05.d5_write_value_err {a : Day05.InstructionArgument} {m : Day05.IntMachine} {v : Int}
    {f : Fault} (h : a.write_value m v = .error f) :
    f = .err (.outOfBound (Day05.writeTarget a)) ∧ m.ram.length ≤ Day05.writeTarget a := by
  unfold Day05.InstructionArgument.write_value at h
  unfold Day05.writeTarget
  split at h <;> exact Day05.d5_write_at_position_err h

theorem Day05.d5_write_value_exiting {a : Day05.InstructionArgument} {m : Day05.IntMachine}
    {v : Int} (h : a.write_value m v = .error (.err .exiting)) : False := by
  cases (Day05.d5_write_value_err h).1

theorem Day05.d5_execWrite3_exiting {ctx : Day05.InstructionContext} {m1 : Day05.IntMachine}
    {op : Int → Int → Int} (h : Day05.execWrite3 ctx m1 op = .error (.err .exiting)) :
    False := by
  unfold Day05.execWrite3 at h
  repeat' split at h
  all_goals first
    | exact Day05.d5_write_value_exiting h
    | (cases h <;> first
        | exact Day05.d5_argAt_exiting (by assumption)
        | exact Day05.d5_get_value_exiting (by assumption))

theorem Day05.d5_execJump_exiting {ctx : Day05.InstructionContext} {m1 : Day05.IntMachine}
    {cond : Int → Bool} (h : Day05.execJump ctx m1 cond = .error (.err .exiting)) :
    False := by
  unfold Day05.execJump at h
  repeat' split at h
  all_goals cases h <;> first
    | exact Day05.d5_argAt_exiting (by assumption)
    | exact Day05.d5_get_value_exiting (by assumption)

theorem Day05.d5_step_exiting {m : Day05.IntMachine}
    (h : m.step = .error (.err .exiting)) : False := by
  unfold Day05.IntMachine.step at h
  repeat' split at h
  all_goals first
    | exact absurd rfl (by assumption)
    | (cases h <;> first
        | exact absurd rfl (by assumption)
        | exact Day05.d5_execWrite3_exiting (by assumption)
        | exact Day05.d5_execJump_exiting (by assumption)
        | exact Day05.d5_argAt_exiting (by assumption)
        | exact Day05.d5_get_value_exiting (by assumption)
        | exact Day05.d5_write_value_exiting (by assumption))

theorem Day05.d5_run_exiting : ∀ (fuel : Nat) (m : Day05.IntMachine) (d : Bool),
    Day05.IntMachine.run fuel m d = some (.error (.err .exiting)) → False := by
  intro fuel
  induction fuel with
  | zero =>
    intro m d h
    simp [Day05.IntMachine.run] at h
  | succ f ih =>
    intro m d h
    rw [Day05.IntMachine.run] at h
    split at h
    · cases h
      exact Day05.d5_step_exiting (by assumption)
    · cases h
    · exact ih _ _ h

theorem Day05.d5_decode_instruction {t : Day05.InstructionType} {m : Day05.IntMachine}
    {c : Day05.InstructionContext} (h : t.read_instruction m = .ok c) :
    c.instruction = t := by
  unfold Day05.InstructionType.read_instruction at h
  repeat' split at h
  all_goals cases h
  rfl

theorem Day05.d5_read_instruction_ok {m : Day05.IntMachine} {ctx : Day05.InstructionContext}
    {m' : Day05.IntMachine} (h : m.read_instruction = .ok (ctx, m')) :
    m'.ram = m.ram ∧ m'.input_value = m.input_value ∧
      m'.output_values = m.output_values ∧
      m'.ip = m.ip + ctx.instruction.code_size ∧
      ctx.instruction.read_instruction m = .ok ctx := by
  unfold Day05.IntMachine.read_instruction at h
  repeat' split at h
  all_goals cases h
  have hinstr := Day05.d5_decode_instruction (by assumption)
  rw [hinstr]
  exact ⟨rfl, rfl, rfl, rfl, by assumption⟩

theorem Day05.read_at_position_congr {m m₂ : Day05.IntMachine} (hram : m₂.ram = m.ram)
    (p : Nat) : m₂.read_at_position p = m.read_at_position p := by
  unfold Day05.IntMachine.read_at_position
  rw [hram]

theorem Day05.readArgumentList_congr {m m₂ : Day05.IntMachine} (hram : m₂.ram = m.ram)
    (hip : m₂.ip = m.ip) : ∀ (cfg : List Day05.ParameterMode) (i : Nat),
    Day05.readArgumentList m₂ i cfg = Day05.readArgumentList m i cfg := by
  intro cfg
  induction cfg with
  | nil => intro i; rfl
  | cons pm rest ih =>
    intro i
    unfold Day05.readArgumentList
    rw [Day05.read_at_position_congr hram, hip, ih]

theorem Day05.decode_congr {m m₂ : Day05.IntMachine} (hram : m₂.ram = m.ram)
    (hip : m₂.ip = m.ip) (t : Day05.InstructionType) :
    t.read_instruction m₂ = t.read_instruction m := by
  unfold Day05.InstructionType.read_instruction
  simp only [Day05.read_at_position_congr hram, Day05.readArgumentList_congr hram hip, hip]

theorem Day05.step_input {m : Day05.IntMachine} {ctx : Day05.InstructionContext}
    {m1 m2 : Day05.IntMachine} {a0 : Day05.InstructionArgument}
    (hri : m.read_instruction = .ok (ctx, m1)) (hin : ctx.instruction = .input)
    (ha : Day05.argAt ctx 0 = .ok a0)
    (hw : a0.write_value m1 m1.input_value = .ok m2) :
    m.step = .ok (.next m2) := by
  simp only [Day05.IntMachine.step, hri, hin, ha, hw]

theorem Day05.d5_run_next {f : Nat} {m m2 : Day05.IntMachine} {d : Bool}
    (hstep : m.step = .ok (.next m2)) :
    Day05.IntMachine.run (f + 1) m d = Day05.IntMachine.run f m2 d := by
  simp only [Day05.IntMachine.run, hstep]

theorem Day05.step_halted {m : Day05.IntMachine}
    (h : m.read_instruction = .error (.err .exiting)) : m.step = .ok (.halted m) := by
  simp only [Day05.IntMachine.step, h]

theorem Day05.d5_run_halted {f : Nat} {m : Day05.IntMachine} {d : Bool}
    (h : m.step = .ok (.halted m)) :
    Day05.IntMachine.run (f + 1) m d = some (.ok (if d then m.ram else m.output_values)) := by
  simp only [Day05.IntMachine.run, h]

theorem Day07.d7_argAt_err {ctx : Day07.InstructionContext} {i : Nat} {f : Fault}
    (h : Day07.argAt ctx i = .error f) : f = .panicked .indexOutOfBounds := by
  unfold Day07.argAt at h
  split at h
  · cases h
  · cases h
    rfl

theorem Day07.d7_argAt_exiting {ctx : Day07.InstructionContext} {i : Nat}
    (h : Day07.argAt ctx i = .error (.err .exiting)) : False := by
  cases Day07.d7_argAt_err h

theorem Day07.d7_get_value_err {a : Day07.InstructionArgument} {m : Day07.IntMachine} {f : Fault}
    (h : a.get_value m = .error f) : ∃ p, f = .err (.outOfBound p) := by
  unfold Day07.InstructionArgument.get_value at h
  split at h
  · cases h
  · unfold Day07.IntMachine.read_at_position at h
    split at h
    · cases h
      exact ⟨_, rfl⟩
    · cases h

theorem Day07.d7_get_value_exiting {a : Day07.InstructionArgument} {m : Day07.IntMachine}
    (h : a.get_value m = .error (.err .exiting)) : False := by
  rcases Day07.d7_get_value_err h with ⟨p, hp⟩
  cases hp

theorem Day07.d7_write_at_position_ok {m : Day07.IntMachine} {p : Nat} {v : Int}
    {m' : Day07.IntMachine} (h : m.write_at_position p v = .ok m') :
    m' = { m with ram := m.ram.set p v } ∧ p < m.ram.length := by
  unfold Day07.IntMachine.write_at_position at h
  split at h
  · cases h
  · cases h
    exact ⟨rfl, by omega⟩

theorem Day07.d7_write_at_position_err {m : Day07.IntMachine} {p : Nat} {v : Int} {f : Fault}
    (h : m.write_at_position p v = .error f) :
    f = .err (.outOfBound p) ∧ m.ram.length ≤ p := by
  unfold Day07.IntMachine.write_at_position at h
  split at h
  · cases h
    exact ⟨rfl, by omega⟩
  · cases h

theorem Day07.d7_write_value_ok {a : Day07.InstructionArgument} {m : Day07.IntMachine} {v : Int}
    {m' : Day07.IntMachine} (h : a.write_value m v = .ok m') :
    m' = { m with ram := m.ram.set (Day07.writeTarget a) v } ∧
      Day07.writeTarget a < m.ram.length := by
  unfold Day07.InstructionArgument.write_value at h
  unfold Day07.writeTarget
  split at h <;> exact Day07.d7_write_at_position_ok h

theorem Day07.d7_write_value_err {a : Day07.InstructionArgument} {m : Day07.IntMachine} {v : Int}
    {f : Fault} (h : a.write_value m v = .error f) :
    f = .err (.outOfBound (Day07.writeTarget a)) ∧ m.ram.length ≤ Day07.writeTarget a := by
  unfold Day07.InstructionArgument.write_value at h
  unfold Day07.writeTarget
  split at h <;> exact Day07.d7_write_at_position_err h

theorem Day07.d7_write_value_exiting {a : Day07.InstructionArgument} {m : Day07.IntMachine}
    {v : Int} (h : a.write_value m v = .error (.err .exiting)) : False := by
  cases (Day07.d7_write_value_err h).1

theorem Day07.d7_execWrite3_exiting {ctx : Day07.InstructionContext} {m1 : Day07.IntMachine}
    {op : Int → Int → Int} (h : Day07.execWrite3 ctx m1 op = .error (.err .exiting)) :
    False := by
  unfold Day07.execWrite3 at h
  repeat' split at h
  all_goals first
    | exact Day07.d7_write_value_exiting h
    | (cases h <;> first
        | exact Day07.d7_argAt_exiting (by assumption)
        | exact Day07.d7_get_value_exiting (by assumption))

theorem Day07.d7_execJump_exiting {ctx : Day07.InstructionContext} {m1 : Day07.IntMachine}
    {cond : Int → Bool} (h : Day07.execJump ctx m1 cond = .error (.err .exiting)) :
    False := by
  unfold Day07.execJump at h
  repeat' split at h
  all_goals cases h <;> first
    | exact Day07.d7_argAt_exiting (by assumption)
    | exact Day07.d7_get_value_exiting (by assumption)

theorem Day07.d7_step_exiting {m : Day07.IntMachine} {ins : List Int}
    (h : m.step ins = .error (.err .exiting)) : False := by
  unfold Day07.IntMachine.step at h
  repeat' split at h
  all_goals first
    | exact absurd rfl (by assumption)
    | (cases h <;> first
        | exact absurd rfl (by assumption)
        | exact Day07.d7_execWrite3_exiting (by assumption)
        | exact Day07.d7_execJump_exiting (by assumption)
        | exact Day07.d7_argAt_exiting (by assumption)
        | exact Day07.d7_get_value_exiting (by assumption)
        | exact Day07.d7_write_value_exiting (by assumption))

theorem Day07.d7_decode_instruction {t : Day07.InstructionType} {m : Day07.IntMachine}
    {c : Day07.InstructionContext} (h : t.read_instruction m = .ok c) :
    c.instruction = t := by
  unfold Day07.InstructionType.read_instruction at h
  repeat' split at h
  all_goals cases h
  rfl

theorem Day07.d7_read_instruction_ok {m : Day07.IntMachine} {ctx : Day07.InstructionContext}
    {m' : Day07.IntMachine} (h : m.read_instruction = .ok (ctx, m')) :
    m'.ram = m.ram ∧ m'.output_values = m.output_values ∧
      m'.ip = m.ip + ctx.instruction.code_size ∧
      ctx.instruction.read_instruction m = .ok ctx := by
  unfold Day07.IntMachine.read_instruction at h
  repeat' split at h
  all_goals cases h
  have hinstr := Day07.d7_decode_instruction (by assumption)
  rw [hinstr]
  exact ⟨rfl, rfl, rfl, by assumption⟩

theorem Day07.execWrite3_ok_state {ctx : Day07.InstructionContext} {m1 m2 : Day07.IntMachine}
    {op : Int → Int → Int} (h : Day07.execWrite3 ctx m1 op = .ok m2) :
    m2.output_values = m1.output_values := by
  unfold Day07.execWrite3 at h
  repeat' split at h
  all_goals first
    | cases h
    | (obtain ⟨rfl, -⟩ := Day07.d7_write_value_ok h; rfl)

theorem Day07.execJump_ok_state {ctx : Day07.InstructionContext} {m1 m2 : Day07.IntMachine}
    {cond : Int → Bool} (h : Day07.execJump ctx m1 cond = .ok m2) :
    m2.output_values = m1.output_values := by
  unfold Day07.execJump at h
  repeat' split at h
  all_goals cases h
  all_goals rfl

theorem Day07.write_value_ok_outputs {a : Day07.InstructionArgument}
    {m m' : Day07.IntMachine} {v : Int} (h : a.write_value m v = .ok m') :
    m'.output_values = m.output_values := by
  obtain ⟨rfl, -⟩ := Day07.d7_write_value_ok h
  rfl

theorem Day07.step_next_state {m : Day07.IntMachine} {ins : List Int} {m2 : Day07.IntMachine}
    {ins2 : List Int} (h : m.step ins = .ok (.next m2 ins2)) :
    m2.output_values = m.output_values ∧ (ins2 = ins ∨ ∃ v, ins = v :: ins2) := by
  unfold Day07.IntMachine.step at h
  repeat' split at h
  all_goals cases h <;> first
    | exact ⟨(Day07.execWrite3_ok_state (by assumption)).trans
        (Day07.d7_read_instruction_ok (by assumption)).2.1, Or.inl rfl⟩
    | exact ⟨(Day07.execJump_ok_state (by assumption)).trans
        (Day07.d7_read_instruction_ok (by assumption)).2.1, Or.inl rfl⟩
    | exact ⟨(Day07.write_value_ok_outputs (by assumption)).trans
        (Day07.d7_read_instruction_ok (by assumption)).2.1, Or.inr ⟨_, rfl⟩⟩

theorem Day07.step_produced_state {m : Day07.IntMachine} {ins : List Int} {v : Int}
    {m2 : Day07.IntMachine} {ins2 : List Int}
    (h : m.step ins = .ok (.produced v m2 ins2)) :
    m2.output_values = m.output_values ++ [v] ∧ ins2 = ins := by
  unfold Day07.IntMachine.step at h
  repeat' split at h
  all_goals cases h
  exact ⟨congrArg (fun l => l ++ [_]) (Day07.d7_read_instruction_ok (by assumption)).2.1, rfl⟩

theorem Day07.step_halted_state {m : Day07.IntMachine} {ins : List Int}
    {mh : Day07.IntMachine} (h : m.step ins = .ok (.halted mh)) :
    mh.output_values = m.output_values := by
  unfold Day07.IntMachine.step at h
  repeat' split at h
  all_goals cases h <;> first
    | rfl
    | exact (Day07.d7_read_instruction_ok (by assumption)).2.1

theorem Day07.step_next_nil {m : Day07.IntMachine} {m2 : Day07.IntMachine} {ins2 : List Int}
    (h : m.step [] = .ok (.next m2 ins2)) : ins2 = [] := by
  rcases (Day07.step_next_state h).2 with h1 | ⟨v, hv⟩
  · exact h1
  · cases hv

theorem Day07.run_mono : ∀ (f : Nat) (m : Day07.IntMachine) (d b : Bool) (ins : List Int)
    (r : Except Fault (Day07.MachineReturn × Day07.IntMachine)),
    Day07.IntMachine.run f m d b ins = some r →
    Day07.IntMachine.run (f + 1) m d b ins = some r := by
  intro f
  induction f with
  | zero =>
    intro m d b ins r h
    simp [Day07.IntMachine.run] at h
  | succ g ih =>
    intro m d b ins r h
    rw [Day07.IntMachine.run] at h
    rw [Day07.IntMachine.run]
    cases hs : m.step ins with
    | error fa => simp only [hs] at h ⊢; exact h
    | ok sr =>
      cases sr with
      | halted mh => simp only [hs] at h ⊢; exact h
      | next m2 rest =>
        simp only [hs] at h ⊢
        exact ih _ _ _ _ _ h
      | produced v m2 rest =>
        simp only [hs] at h ⊢
        by_cases hb : b
        · simp only [hb, if_true] at h ⊢; exact h
        · simp only [hb, if_false] at h ⊢; exact ih _ _ _ _ _ h

theorem Day07.run_mono_add : ∀ (k f : Nat) (m : Day07.IntMachine) (d b : Bool)
    (ins : List Int) (r : Except Fault (Day07.MachineReturn × Day07.IntMachine)),
    Day07.IntMachine.run f m d b ins = some r →
    Day07.IntMachine.run (f + k) m d b ins = some r := by
  intro k
  induction k with
  | zero => intro f m d b ins r h; exact h
  | succ j ih =>
    intro f m d b ins r h
    exact Day07.run_mono _ _ _ _ _ _ (ih _ _ _ _ _ _ h)

theorem Day07.run_break_output_state : ∀ (f : Nat) (m : Day07.IntMachine) (d : Bool)
    (ins : List Int) (v : Int) (m1 : Day07.IntMachine),
    Day07.IntMachine.run f m d true ins = some (.ok (.output v, m1)) →
    m1.output_values = m.output_values ++ [v] := by
  intro f
  induction f with
  | zero =>
    intro m d ins v m1 h
    simp [Day07.IntMachine.run] at h
  | succ g ih =>
    intro m d ins v m1 h
    rw [Day07.IntMachine.run] at h
    cases hs : m.step ins with
    | error fa => simp only [hs] at h; cases h
    | ok sr =>
      cases sr with
      | halted mh => simp only [hs] at h; cases h
      | next m2 rest =>
        simp only [hs] at h
        rw [ih _ _ _ _ _ h, (Day07.step_next_state hs).1]
      | produced w m2 rest =>
        simp only [hs, if_true] at h
        cases h
        exact (Day07.step_produced_state hs).1

theorem Day07.run_break_cont : ∀ (f : Nat) (m : Day07.IntMachine) (d : Bool) (v : Int)
    (m1 : Day07.IntMachine) (g : Nat)
    (r : Except Fault (Day07.MachineReturn × Day07.IntMachine)),
    Day07.IntMachine.run f m d true [] = some (.ok (.output v, m1)) →
    Day07.IntMachine.run g m1 d false [] = some r →
    Day07.IntMachine.run (f + g) m d false [] = some r := by
  intro f
  induction f with
  | zero =>
    intro m d v m1 g r h1 h2
    simp [Day07.IntMachine.run] at h1
  | succ k ih =>
    intro m d v m1 g r h1 h2
    rw [Day07.IntMachine.run] at h1
    have hfe : k + 1 + g = (k + g) + 1 := by omega
    rw [hfe, Day07.IntMachine.run]
    cases hs : m.step [] with
    | error fa => simp only [hs] at h1; cases h1
    | ok sr =>
      cases sr with
      | halted mh => simp only [hs] at h1; cases h1
      | next m2 rest =>
        simp only [hs] at h1 ⊢
        rw [Day07.step_next_nil hs] at h1 ⊢
        exact ih _ _ _ _ _ _ h1 h2
      | produced w m2 rest =>
        simp only [hs, if_true] at h1
        cases h1
        have hrest := (Day07.step_produced_state hs).2
        subst hrest
        simp only [Bool.false_eq_true, if_false]
        rw [Nat.add_comm]
        exact Day07.run_mono_add _ _ _ _ _ _ _ h2

theorem Day07.run_break_exit : ∀ (f : Nat) (m : Day07.IntMachine) (d : Bool)
    (out : List Int) (mf : Day07.IntMachine),
    Day07.IntMachine.run f m d true [] = some (.ok (.exit out, mf)) →
    Day07.IntMachine.run f m d false [] = some (.ok (.exit out, mf)) := by
  intro f
  induction f with
  | zero =>
    intro m d out mf h
    simp [Day07.IntMachine.run] at h
  | succ g ih =>
    intro m d out mf h
    rw [Day07.IntMachine.run] at h
    rw [Day07.IntMachine.run]
    cases hs : m.step [] with
    | error fa => simp only [hs] at h ⊢; exact h
    | ok sr =>
      cases sr with
      | halted mh => simp only [hs] at h ⊢; exact h
      | next m2 rest =>
        simp only [hs] at h ⊢
        rw [Day07.step_next_nil hs] at h ⊢
        exact ih _ _ _ _ h
      | produced w m2 rest =>
        simp only [hs, if_true] at h
        cases h

theorem Day07.run_break_exit_state : ∀ (f : Nat) (m : Day07.IntMachine) (d : Bool)
    (out : List Int) (mf : Day07.IntMachine),
    Day07.IntMachine.run f m d true [] = some (.ok (.exit out, mf)) →
    mf.output_values = m.output_values ∧ out = (if d then mf.ram else mf.output_values) := by
  intro f
  induction f with
  | zero =>
    intro m d out mf h
    simp [Day07.IntMachine.run] at h
  | succ g ih =>
    intro m d out mf h
    rw [Day07.IntMachine.run] at h
    cases hs : m.step [] with
    | error fa => simp only [hs] at h; cases h
    | ok sr =>
      cases sr with
      | halted mh =>
        simp only [hs] at h
        cases h
        exact ⟨Day07.step_halted_state hs, rfl⟩
      | next m2 rest =>
        simp only [hs] at h
        rw [Day07.step_next_nil hs] at h
        obtain ⟨h1, h2⟩ := ih _ _ _ _ h
        exact ⟨h1.trans (Day07.step_next_state hs).1, h2⟩
      | produced w m2 rest =>
        simp only [hs, if_true] at h
        cases h

theorem Day07.collect_spec : ∀ (rounds fuel : Nat) (m : Day07.IntMachine) (vs : List Int)
    (mf : Day07.IntMachine),
    Day07.collectOutputs rounds fuel m = some (.ok (vs, mf)) →
    (∃ F, Day07.IntMachine.run F m false false [] = some (.ok (.exit mf.output_values, mf))) ∧
      mf.output_values = m.output_values ++ vs := by
  intro rounds
  induction rounds with
  | zero =>
    intro fuel m vs mf h
    simp [Day07.collectOutputs] at h
  | succ r ih =>
    intro fuel m vs mf h
    rw [Day07.collectOutputs] at h
    cases hr : Day07.IntMachine.run fuel m false true [] with
    | none => simp only [hr] at h; cases h
    | some e =>
      cases e with
      | error fa => simp only [hr] at h; cases h
      | ok p =>
        obtain ⟨mr, m1⟩ := p
        cases mr with
        | output v =>
          simp only [hr] at h
          cases hc : Day07.collectOutputs r fuel m1 with
          | none => simp only [hc] at h; cases h
          | some e2 =>
            cases e2 with
            | error fa => simp only [hc] at h; cases h
            | ok q =>
              obtain ⟨vs2, mf2⟩ := q
              simp only [hc] at h
              cases h
              obtain ⟨⟨F, hF⟩, houts⟩ := ih _ _ _ _ hc
              refine ⟨⟨fuel + F, Day07.run_break_cont _ _ _ _ _ _ _ hr hF⟩, ?_⟩
              rw [houts, Day07.run_break_output_state _ _ _ _ _ _ hr]
              simp
        | exit out =>
          simp only [hr] at h
          cases h
          obtain ⟨ho, hout⟩ := Day07.run_break_exit_state _ _ _ _ _ hr
          have hc2 := Day07.run_break_exit _ _ _ _ _ hr
          simp only [Bool.false_eq_true, if_false] at hout
          refine ⟨⟨fuel, ?_⟩, by simp [ho]⟩
          rw [← hout]
          exact hc2

theorem Day07.step_input_empty {m : Day07.IntMachine} {ctx : Day07.InstructionContext}
    {m1 : Day07.IntMachine} (hri : m.read_instruction = .ok (ctx, m1))
    (hin : ctx.instruction = .input) :
    m.step [] = .error (.panicked .removeEmpty) := by
  simp only [Day07.IntMachine.step, hri, hin]

theorem Day07.step_input_cons {m : Day07.IntMachine} {ctx : Day07.InstructionContext}
    {m1 m2 : Day07.IntMachine} {a0 : Day07.InstructionArgument} {v : Int} {rest : List Int}
    (hri : m.read_instruction = .ok (ctx, m1)) (hin : ctx.instruction = .input)
    (ha : Day07.argAt ctx 0 = .ok a0) (hw : a0.write_value m1 v = .ok m2) :
    m.step (v :: rest) = .ok (.next m2 rest) := by
  simp only [Day07.IntMachine.step, hri, hin, ha, hw]

theorem Day07.step_halted_of_exiting {m : Day07.IntMachine} {ins : List Int}
    (h : m.read_instruction = .error (.err .exiting)) : m.step ins = .ok (.halted m) := by
  simp only [Day07.IntMachine.step, h]

theorem Day07.run_err {f : Nat} {m : Day07.IntMachine} {d b : Bool} {ins : List Int}
    {fa : Fault} (h : m.step ins = .error fa) :
    Day07.IntMachine.run (f + 1) m d b ins = some (.error fa) := by
  simp only [Day07.IntMachine.run, h]

theorem Day07.d7_run_next {f : Nat} {m m2 : Day07.IntMachine} {d b : Bool}
    {ins rest : List Int} (h : m.step ins = .ok (.next m2 rest)) :
    Day07.IntMachine.run (f + 1) m d b ins = Day07.IntMachine.run f m2 d b rest := by
  simp only [Day07.IntMachine.run, h]

theorem Day07.d7_run_halted {f : Nat} {m mh : Day07.IntMachine} {d b : Bool} {ins : List Int}
    (h : m.step ins = .ok (.halted mh)) :
    Day07.IntMachine.run (f + 1) m d b ins =
      some (.ok (.exit (if d then mh.ram else mh.output_values), mh)) := by
  simp only [Day07.IntMachine.run, h]

theorem Day07.d7_run_exiting : ∀ (fuel : Nat) (m : Day07.IntMachine) (d b : Bool)
    (ins : List Int),
    Day07.IntMachine.run fuel m d b ins = some (.error (.err .exiting)) → False := by
  intro fuel
  induction fuel with
  | zero =>
    intro m d b ins h
    simp [Day07.IntMachine.run] at h
  | succ f ih =>
    intro m d b ins h
    rw [Day07.IntMachine.run] at h
    split at h
    · cases h
      exact Day07.d7_step_exiting (by assumption)
    · cases h
    · split at h
      · cases h
      · exact ih _ _ _ _ h
    · exact ih _ _ _ _ h

theorem Day05.from_opcode_invalid {u : Nat}
    (h : u % 100 ∉ ([1, 2, 3, 4, 5, 6, 7, 8, 99] : List Nat)) :
    Day05.InstructionType.from_opcode u = .error (.err (.invalidInstruction u)) := by
  unfold Day05.InstructionType.from_opcode
  split
  all_goals first
    | rfl
    | (exfalso; simp_all)

theorem Day05.from_opcode_addition {u : Nat} (h : u % 100 = 1) :
    Day05.InstructionType.from_opcode u = .ok .addition := by
  unfold Day05.InstructionType.from_opcode
  rw [h]

theorem toUsize_nonneg_mod (v : Int) (h0 : 0 ≤ v) (h64 : v < 2 ^ 64) :
    toUsize v % 100 = (v % 100).toNat := by
  unfold toUsize
  rw [Int.emod_eq_of_lt h0 h64]
  omega

theorem Day05.d5_mode_panics {opcode position : Nat}
    (h : 2 ≤ opcode / 10 ^ (position + 2) % 10) :
    Day05.ParameterMode.from_opcode opcode position = .error (.panicked .unimplementedMode) := by
  unfold Day05.ParameterMode.from_opcode
  split
  · omega
  · omega
  · rfl

theorem Day07.d7_mode_panics {opcode position : Nat}
    (h : 2 ≤ opcode / 10 ^ (position + 2) % 10) :
    Day07.ParameterMode.from_opcode opcode position = .error (.panicked .unimplementedMode) := by
  unfold Day07.ParameterMode.from_opcode
  split
  · omega
  · omega
  · rfl

/-- C1 counterexample: the code has no input-starved error.  On day07, a
read-input instruction with an empty per-call input list panics inside
`input_values.remove(0)` rather than failing with a recoverable machine
error; on day05 a single stored input value is re-used by every read-input
instruction (program `[3,0,3,1,99]` with the one input `7` writes `7`
twice), where the claim's queue semantics would starve the second read. -/
theorem c1_counterexample :
    Day07.IntMachine.run 5 ⟨0, [3, 0, 99], []⟩ false false [] =
      some (.error (.panicked .removeEmpty)) ∧
    Day05.IntMachine.run 10 ⟨0, [3, 0, 3, 1, 99], 7, []⟩ true =
      some (.ok [7, 7, 3, 1, 99]) := by
  exact ⟨by decide, by decide⟩

/-- C1 (amended): on day07, a read-input instruction executed with an empty
per-call input list panics (`Vec::remove(0)` on an empty vector); with a
non-empty list the front value is dequeued and written to the result
operand's resolved address.  On day05 there is no queue: the machine stores
one input value, every read-input instruction writes that stored value, and
the value is preserved for re-use by later reads. -/
theorem c1_input_semantics :
    (∀ (fuel : Nat) (m : Day07.IntMachine) (ctx : Day07.InstructionContext)
      (m1 : Day07.IntMachine) (d b : Bool),
      m.read_instruction = .ok (ctx, m1) → ctx.instruction = .input →
      Day07.IntMachine.run (fuel + 1) m d b [] = some (.error (.panicked .removeEmpty))) ∧
    (∀ (fuel : Nat) (m : Day07.IntMachine) (ctx : Day07.InstructionContext)
      (m1 m2 : Day07.IntMachine) (a0 : Day07.InstructionArgument) (d b : Bool) (v : Int)
      (rest : List Int),
      m.read_instruction = .ok (ctx, m1) → ctx.instruction = .input →
      Day07.argAt ctx 0 = .ok a0 → a0.write_value m1 v = .ok m2 →
      Day07.IntMachine.run (fuel + 1) m d b (v :: rest) =
          Day07.IntMachine.run fuel m2 d b rest ∧
        m2.ram = m1.ram.set (Day07.writeTarget a0) v) ∧
    (∀ (fuel : Nat) (m : Day05.IntMachine) (ctx : Day05.InstructionContext)
      (m1 m2 : Day05.IntMachine) (a0 : Day05.InstructionArgument) (d : Bool),
      m.read_instruction = .ok (ctx, m1) → ctx.instruction = .input →
      Day05.argAt ctx 0 = .ok a0 → a0.write_value m1 m1.input_value = .ok m2 →
      Day05.IntMachine.run (fuel + 1) m d = Day05.IntMachine.run fuel m2 d ∧
        m2.input_value = m.input_value ∧
        m2.ram = m1.ram.set (Day05.writeTarget a0) m1.input_value) := by
  refine ⟨?_, ?_, ?_⟩
  · intro fuel m ctx m1 d b hri hin
    exact Day07.run_err (Day07.step_input_empty hri hin)
  · intro fuel m ctx m1 m2 a0 d b v rest hri hin ha hw
    refine ⟨Day07.d7_run_next (Day07.step_input_cons hri hin ha hw), ?_⟩
    obtain ⟨rfl, -⟩ := Day07.d7_write_value_ok hw
    rfl
  · intro fuel m ctx m1 m2 a0 d hri hin ha hw
    refine ⟨Day05.d5_run_next (Day05.step_input hri hin ha hw), ?_, ?_⟩
    · obtain ⟨rfl, -⟩ := Day05.d5_write_value_ok hw
      exact (Day05.d5_read_instruction_ok hri).2.1
    · obtain ⟨rfl, -⟩ := Day05.d5_write_value_ok hw
      rfl

/-- C1 witness: the amended statement evaluated on `[3,0,99]` (day07, empty
then non-empty input list) and on `[3,1,99]` with stored input `7` (day05). -/
theorem c1_input_semantics_witness :
    Day07.IntMachine.run 1 ⟨0, [3, 0, 99], []⟩ false false [] =
        some (.error (.panicked .removeEmpty)) ∧
    (Day07.IntMachine.run 1 ⟨0, [3, 0, 99], []⟩ false false [7] =
        Day07.IntMachine.run 0 ⟨2, [7, 0, 99], []⟩ false false [] ∧
      (⟨2, [7, 0, 99], []⟩ : Day07.IntMachine).ram =
        (⟨2, [3, 0, 99], []⟩ : Day07.IntMachine).ram.set
          (Day07.writeTarget ⟨0, .position, 1⟩) 7) ∧
    (Day05.IntMachine.run 1 ⟨0, [3, 1, 99], 7, []⟩ true =
        Day05.IntMachine.run 0 ⟨2, [3, 7, 99], 7, []⟩ true ∧
      (⟨2, [3, 7, 99], 7, []⟩ : Day05.IntMachine).input_value = 7) := by
  refine ⟨?_, ?_, ?_⟩
  · exact c1_input_semantics.1 0 ⟨0, [3, 0, 99], []⟩
      ⟨.input, [⟨0, .position, 1⟩]⟩ ⟨2, [3, 0, 99], []⟩ false false (by decide) (by decide)
  · exact c1_input_semantics.2.1 0 ⟨0, [3, 0, 99], []⟩
      ⟨.input, [⟨0, .position, 1⟩]⟩ ⟨2, [3, 0, 99], []⟩ ⟨2, [7, 0, 99], []⟩
      ⟨0, .position, 1⟩ false false 7 [] (by decide) (by decide) (by decide) (by decide)
  · have h := c1_input_semantics.2.2 0 ⟨0, [3, 1, 99], 7, []⟩
      ⟨.input, [⟨1, .position, 1⟩]⟩ ⟨2, [3, 1, 99], 7, []⟩ ⟨2, [3, 7, 99], 7, []⟩
      ⟨1, .position, 1⟩ true (by decide) (by decide) (by decide) (by decide)
    exact ⟨h.1, h.2.1⟩

/-- C2: the claim is the intent of the code (decoder reads are bounds-checked
and report `OutOfBound` with the offending address), and day05/day07 follow
it, but day02's `IntMachine::read_instruction` reads the result cell as
`self.ram[self.ip + 3]`, a raw unchecked slice index.  On memory `[1,0,0]`
the opcode and both argument cells pass their bounds checks and the raw read
of address 3 panics instead of returning `OutOfBound(3)`. -/
theorem c2_day02_result_cell_panics :
    Day02.IntMachine.read_instruction ⟨0, [1, 0, 0]⟩ =
      .error (.panicked .indexOutOfBounds) := by
  decide

/-- C3: a write target is always resolved as an address, never written as an
immediate: `write_value` writes `value` to exactly the cell at
`writeTarget a` (the operand's own value cast to an address in position
mode, the operand's absolute cell position — a redirected address — in
immediate mode), and fails with `OutOfBound` of that same address when it is
past the end of memory.  Holds in both day07 and day05. -/
theorem c3_write_target_resolution :
    (∀ (a : Day07.InstructionArgument) (m m' : Day07.IntMachine) (v : Int),
      a.write_value m v = .ok m' →
      m' = { m with ram := m.ram.set (Day07.writeTarget a) v } ∧
        Day07.writeTarget a < m.ram.length) ∧
    (∀ (a : Day07.InstructionArgument) (m : Day07.IntMachine) (v : Int) (f : Fault),
      a.write_value m v = .error f →
      f = .err (.outOfBound (Day07.writeTarget a)) ∧ m.ram.length ≤ Day07.writeTarget a) ∧
    (∀ (a : Day05.InstructionArgument) (m m' : Day05.IntMachine) (v : Int),
      a.write_value m v = .ok m' →
      m' = { m with ram := m.ram.set (Day05.writeTarget a) v } ∧
        Day05.writeTarget a < m.ram.length) ∧
    (∀ (a : Day05.InstructionArgument) (m : Day05.IntMachine) (v : Int) (f : Fault),
      a.write_value m v = .error f →
      f = .err (.outOfBound (Day05.writeTarget a)) ∧ m.ram.length ≤ Day05.writeTarget a) := by
  refine ⟨?_, ?_, ?_, ?_⟩
  · intro a m m' v h
    exact Day07.d7_write_value_ok h
  · intro a m v f h
    exact Day07.d7_write_value_err h
  · intro a m m' v h
    exact Day05.d5_write_value_ok h
  · intro a m v f h
    exact Day05.d5_write_value_err h

/-- C3 witness: an immediate-mode write target redirects the write to the
operand's own cell (address 2), mutating exactly that cell; a position-mode
target with value `-1` resolves to the cast address `2 ^ 64 - 1` and fails
with `OutOfBound` of that address. -/
theorem c3_write_target_resolution_witness :
    ((⟨0, [9, 9, 42, 9], []⟩ : Day07.IntMachine) =
      { (⟨0, [9, 9, 9, 9], []⟩ : Day07.IntMachine) with
          ram := ([9, 9, 9, 9] : List Int).set
            (Day07.writeTarget ⟨5, .immediate, 2⟩) 42 } ∧
      Day07.writeTarget ⟨5, .immediate, 2⟩ < ([9, 9, 9, 9] : List Int).length) ∧
    ((Fault.err (.outOfBound 18446744073709551615)) =
      .err (.outOfBound (Day07.writeTarget ⟨-1, .position, 1⟩)) ∧
      ([9, 9, 9, 9] : List Int).length ≤ Day07.writeTarget ⟨-1, .position, 1⟩) := by
  refine ⟨?_, ?_⟩
  · exact c3_write_target_resolution.1 ⟨5, .immediate, 2⟩ ⟨0, [9, 9, 9, 9], []⟩
      ⟨0, [9, 9, 42, 9], []⟩ 42 (by decide)
  · exact c3_write_target_resolution.2.1 ⟨-1, .position, 1⟩ ⟨0, [9, 9, 9, 9], []⟩ 5
      (.err (.outOfBound 18446744073709551615)) (by decide)

/-- C4 counterexample: pending input values are not preserved across a
suspend.  On `[3,0,4,0,3,1,4,1,99]` a call with inputs `[10, 20]` suspends
at `Output(10)` with `20` still unconsumed; resuming the returned machine
with no new inputs panics on the next read-input instead of consuming the
(claimed-preserved) `20` and returning `Output(20)`. -/
theorem c4_counterexample :
    Day07.IntMachine.run 3 ⟨0, [3, 0, 4, 0, 3, 1, 4, 1, 99], []⟩ false true [10, 20] =
      some (.ok (.output 10, ⟨4, [10, 0, 4, 0, 3, 1, 4, 1, 99], [10]⟩)) ∧
    Day07.IntMachine.run 5 ⟨4, [10, 0, 4, 0, 3, 1, 4, 1, 99], [10]⟩ false true [] =
      some (.error (.panicked .removeEmpty)) := by
  exact ⟨by decide, by decide⟩

/-- C4 (amended): `run(_, break_at_output := true, input_values)` uses
`input_values` only for the duration of the call.  Across a suspend at
`Output(value)` the instruction pointer, memory and emitted-output sequence
are preserved in the returned machine (the output list has exactly the
suspending value appended, and resuming the returned machine in
non-breaking mode continues exactly where execution paused), but unconsumed
pending input values are dropped with the call and must be re-supplied by
the caller — as the third conjunct shows for the machine suspended in the
counterexample, re-fed its lost input `20`. -/
theorem c4_suspend_state :
    (∀ (f : Nat) (m m1 : Day07.IntMachine) (d : Bool) (ins : List Int) (v : Int),
      Day07.IntMachine.run f m d true ins = some (.ok (.output v, m1)) →
      m1.output_values = m.output_values ++ [v]) ∧
    (∀ (f g : Nat) (m m1 : Day07.IntMachine) (d : Bool) (v : Int)
      (r : Except Fault (Day07.MachineReturn × Day07.IntMachine)),
      Day07.IntMachine.run f m d true [] = some (.ok (.output v, m1)) →
      Day07.IntMachine.run g m1 d false [] = some r →
      Day07.IntMachine.run (f + g) m d false [] = some r) ∧
    Day07.IntMachine.run 5 ⟨4, [10, 0, 4, 0, 3, 1, 4, 1, 99], [10]⟩ false true [20] =
      some (.ok (.output 20, ⟨8, [10, 20, 4, 0, 3, 1, 4, 1, 99], [10, 20]⟩)) := by
  refine ⟨?_, ?_, by decide⟩
  · intro f m m1 d ins v h
    exact Day07.run_break_output_state f m d ins v m1 h
  · intro f g m m1 d v r h1 h2
    exact Day07.run_break_cont f m d v m1 g r h1 h2

/-- C4 witness: the amended statement evaluated on the counterexample
program: the suspend at `Output(10)` leaves the machine with outputs
`[] ++ [10]`, and gluing the suspended prefix onto a non-breaking
continuation reproduces the non-breaking run. -/
theorem c4_suspend_state_witness :
    ([10] : List Int) = [] ++ [10] ∧
    Day07.IntMachine.run 9 ⟨0, [104, 7, 99], []⟩ false false [] =
      some (.ok (.exit [7], ⟨2, [104, 7, 99], [7]⟩)) := by
  refine ⟨?_, ?_⟩
  · exact c4_suspend_state.1 3 ⟨0, [3, 0, 4, 0, 3, 1, 4, 1, 99], []⟩
      ⟨4, [10, 0, 4, 0, 3, 1, 4, 1, 99], [10]⟩ false [10, 20] 10 (by decide)
  · exact c4_suspend_state.2.1 2 7 ⟨0, [104, 7, 99], []⟩ ⟨2, [104, 7, 99], [7]⟩ false 7
      (.ok (.exit [7], ⟨2, [104, 7, 99], [7]⟩)) (by decide) (by decide)

/-- C5: suspend/resume equivalence.  For a fresh machine (no outputs yet) run
with empty input lists — in particular any program consuming no input —
repeatedly calling `run(false, true, [])` and collecting every
`Output(value)` until `Exit` is reached produces exactly the value list
and final machine that a single non-breaking `run(false, false, [])`
returns. -/
theorem c5_suspend_resume_equivalence :
    ∀ (rounds fuel : Nat) (m : Day07.IntMachine) (vs : List Int)
      (mf : Day07.IntMachine), m.output_values = [] →
      Day07.collectOutputs rounds fuel m = some (.ok (vs, mf)) →
      ∃ F, Day07.IntMachine.run F m false false [] = some (.ok (.exit vs, mf)) := by
  intro rounds fuel m vs mf h0 hc
  obtain ⟨⟨F, hF⟩, houts⟩ := Day07.collect_spec _ _ _ _ _ hc
  rw [h0] at houts
  simp only [List.nil_append] at houts
  rw [houts] at hF
  exact ⟨F, hF⟩

/-- C5 witness: on `[104,7,104,8,99]` the repeated suspend calls collect
`[7, 8]` in three rounds, and some single non-breaking run returns exactly
that output sequence with the same final machine. -/
theorem c5_suspend_resume_equivalence_witness :
    Day07.collectOutputs 3 10 ⟨0, [104, 7, 104, 8, 99], []⟩ =
      some (.ok ([7, 8], ⟨4, [104, 7, 104, 8, 99], [7, 8]⟩)) ∧
    ∃ F, Day07.IntMachine.run F ⟨0, [104, 7, 104, 8, 99], []⟩ false false [] =
      some (.ok (.exit [7, 8], ⟨4, [104, 7, 104, 8, 99], [7, 8]⟩)) := by
  refine ⟨by decide, ?_⟩
  exact c5_suspend_resume_equivalence 3 10 ⟨0, [104, 7, 104, 8, 99], []⟩ [7, 8]
    ⟨4, [104, 7, 104, 8, 99], [7, 8]⟩ (by decide) (by decide)

/-- C6 counterexample: decoding goes through the `i64 → usize` cast, so for
the negative cell `-1` (whose mathematical residue `-1 mod 100` is `99`,
which the claim maps to halt) day05 decoding instead fails with
`InvalidInstruction` carrying `2 ^ 64 - 1`. -/
theorem c6_counterexample :
    ((-1 : Int) % 100 = 99) ∧
    Day05.IntMachine.read_instruction ⟨0, [-1], 0, []⟩ =
      .error (.err (.invalidInstruction 18446744073709551615)) := by
  exact ⟨by decide, by decide⟩

/-- C6 (amended): with `u = toUsize v` (the value at the instruction pointer
reinterpreted as a 64-bit unsigned integer), `u mod 100` values
`1,2,3,4,5,6,7,8,99` map to add, multiply, read-input, write-output,
jump-if-true, jump-if-false, less-than, equals and halt respectively, and
any other residue fails with `InvalidInstruction` carrying `u`; for
non-negative `v` (below `2 ^ 64`) the residue agrees with `v mod 100`. -/
theorem c6_opcode_dispatch (v : Int) :
    (toUsize v % 100 = 1 →
      Day05.InstructionType.from_opcode (toUsize v) = .ok .addition) ∧
    (toUsize v % 100 = 2 →
      Day05.InstructionType.from_opcode (toUsize v) = .ok .multiplication) ∧
    (toUsize v % 100 = 3 →
      Day05.InstructionType.from_opcode (toUsize v) = .ok .input) ∧
    (toUsize v % 100 = 4 →
      Day05.InstructionType.from_opcode (toUsize v) = .ok .output) ∧
    (toUsize v % 100 = 5 →
      Day05.InstructionType.from_opcode (toUsize v) = .ok .jumpIfTrue) ∧
    (toUsize v % 100 = 6 →
      Day05.InstructionType.from_opcode (toUsize v) = .ok .jumpIfFalse) ∧
    (toUsize v % 100 = 7 →
      Day05.InstructionType.from_opcode (toUsize v) = .ok .lessThan) ∧
    (toUsize v % 100 = 8 →
      Day05.InstructionType.from_opcode (toUsize v) = .ok .equals) ∧
    (toUsize v % 100 = 99 →
      Day05.InstructionType.from_opcode (toUsize v) = .ok .exit) ∧
    (toUsize v % 100 ∉ ([1, 2, 3, 4, 5, 6, 7, 8, 99] : List Nat) →
      Day05.InstructionType.from_opcode (toUsize v) =
        .error (.err (.invalidInstruction (toUsize v)))) ∧
    (0 ≤ v → v < 2 ^ 64 → toUsize v % 100 = (v % 100).toNat) := by
  refine ⟨fun h => ?_, fun h => ?_, fun h => ?_, fun h => ?_, fun h => ?_, fun h => ?_,
    fun h => ?_, fun h => ?_, fun h => ?_, fun h => Day05.from_opcode_invalid h,
    fun h0 h64 => toUsize_nonneg_mod v h0 h64⟩
  all_goals unfold Day05.InstructionType.from_opcode
  all_goals rw [h]

/-- C6 witness: the amended dispatch evaluated at `v = 101` (add), `v = -1`
(invalid, carrying the cast value) and the cast agreement at `v = 101`. -/
theorem c6_opcode_dispatch_witness :
    Day05.InstructionType.from_opcode (toUsize 101) = .ok .addition ∧
    Day05.InstructionType.from_opcode (toUsize (-1)) =
      .error (.err (.invalidInstruction (toUsize (-1)))) ∧
    toUsize 101 % 100 = ((101 : Int) % 100).toNat := by
  refine ⟨?_, ?_, ?_⟩
  · exact (c6_opcode_dispatch 101).1 (by decide)
  · exact (c6_opcode_dispatch (-1)).2.2.2.2.2.2.2.2.2.1 (by decide)
  · exact (c6_opcode_dispatch 101).2.2.2.2.2.2.2.2.2.2 (by decide) (by decide)

/-- C7: decoding is idempotent and side-effect free.  The decoder
`InstructionType::read_instruction` is a pure function of the memory and the
instruction pointer alone (machines agreeing on `ram` and `ip` decode
identically, so decoding twice yields identical instruction values), and the
interpreter's `IntMachine::read_instruction` leaves memory, the stored input
and the outputs untouched, advances the pointer by
`code_size = 1 + arguments_count` exactly on success, and re-decoding the
unchanged machine reproduces the same instruction context. -/
theorem c7_decoder_purity :
    ∀ (m m₂ : Day05.IntMachine) (t : Day05.InstructionType)
      (ctx : Day05.InstructionContext) (m' : Day05.IntMachine),
      (m₂.ram = m.ram → m₂.ip = m.ip →
        t.read_instruction m₂ = t.read_instruction m) ∧
      (m.read_instruction = .ok (ctx, m') →
        m'.ram = m.ram ∧ m'.input_value = m.input_value ∧
          m'.output_values = m.output_values ∧
          m'.ip = m.ip + ctx.instruction.code_size ∧
          ctx.instruction.code_size = ctx.instruction.arguments_count + 1 ∧
          ctx.instruction.read_instruction m = .ok ctx) := by
  intro m m₂ t ctx m'
  refine ⟨fun hram hip => Day05.decode_congr hram hip t, fun h => ?_⟩
  obtain ⟨h1, h2, h3, h4, h5⟩ := Day05.d5_read_instruction_ok h
  exact ⟨h1, h2, h3, h4, rfl, h5⟩

/-- C7 witness: two machines sharing memory and pointer but differing in
input/output state decode `[1101,2,3,0,99]` identically, and the
interpreter's successful decode advanced the pointer by the code size. -/
theorem c7_decoder_purity_witness :
    Day05.InstructionType.addition.read_instruction ⟨0, [1101, 2, 3, 0, 99], 5, [9]⟩ =
      Day05.InstructionType.addition.read_instruction ⟨0, [1101, 2, 3, 0, 99], 0, []⟩ ∧
    (⟨4, [1101, 2, 3, 0, 99], 0, []⟩ : Day05.IntMachine).ip =
      0 + (Day05.InstructionType.addition).code_size := by
  have hall := c7_decoder_purity ⟨0, [1101, 2, 3, 0, 99], 0, []⟩
    ⟨0, [1101, 2, 3, 0, 99], 5, [9]⟩ .addition
    ⟨.addition, [⟨2, .immediate, 1⟩, ⟨3, .immediate, 2⟩, ⟨0, .position, 3⟩]⟩
    ⟨4, [1101, 2, 3, 0, 99], 0, []⟩
  exact ⟨hall.1 rfl rfl, (hall.2 (by decide)).2.2.2.1⟩

/-- C8: the four regression fixtures of the spec, executed by day05's
`run(dump_memory := true)` exactly as in the repository's test-suite. -/
theorem c8_regression_fixtures :
    Day05.IntMachine.run 10 ⟨0, [1, 0, 0, 0, 99], 0, []⟩ true =
      some (.ok [2, 0, 0, 0, 99]) ∧
    Day05.IntMachine.run 10 ⟨0, [2, 3, 0, 3, 99], 0, []⟩ true =
      some (.ok [2, 3, 0, 6, 99]) ∧
    Day05.IntMachine.run 10 ⟨0, [1, 1, 1, 4, 99, 5, 6, 0, 99], 0, []⟩ true =
      some (.ok [30, 1, 1, 4, 2, 5, 6, 0, 99]) ∧
    Day05.IntMachine.run 10 ⟨0, [1002, 4, 3, 4, 33], 0, []⟩ true =
      some (.ok [1002, 4, 3, 4, 99]) := by
  exact ⟨by decide, by decide, by decide, by decide⟩

/-- C9: reaching the halt opcode is never surfaced as a failure.  The
internal `Exiting` signal (a `MachineError` variant distinct from the
recoverable error kinds) can never escape a `run` call, and a machine whose
current instruction decodes to the halt signal returns a success result
(the memory image or the output sequence) on the very next step — in the
day07 and the day05 interpreter alike. -/
theorem c9_halt_not_failure :
    ∀ (fuel : Nat) (m7 : Day07.IntMachine) (d b : Bool) (ins : List Int)
      (m5 : Day05.IntMachine),
      Day07.IntMachine.run fuel m7 d b ins ≠ some (.error (.err .exiting)) ∧
      (m7.read_instruction = .error (.err .exiting) →
        Day07.IntMachine.run (fuel + 1) m7 d b ins =
          some (.ok (.exit (if d then m7.ram else m7.output_values), m7))) ∧
      Day05.IntMachine.run fuel m5 d ≠ some (.error (.err .exiting)) ∧
      (m5.read_instruction = .error (.err .exiting) →
        Day05.IntMachine.run (fuel + 1) m5 d =
          some (.ok (if d then m5.ram else m5.output_values))) := by
  intro fuel m7 d b ins m5
  refine ⟨fun h => Day07.d7_run_exiting _ _ _ _ _ h,
    fun h => Day07.d7_run_halted (Day07.step_halted_of_exiting h),
    fun h => Day05.d5_run_exiting _ _ _ h,
    fun h => Day05.d5_run_halted (Day05.step_halted h)⟩

/-- C9 witness: on the one-cell program `[99]` both interpreters return a
success result at the halt opcode, and no run result is the internal
`Exiting` signal. -/
theorem c9_halt_not_failure_witness :
    Day07.IntMachine.run 1 ⟨0, [99], []⟩ false false [] ≠
      some (.error (.err .exiting)) ∧
    Day07.IntMachine.run 1 ⟨0, [99], []⟩ false false [] =
      some (.ok (.exit [], ⟨0, [99], []⟩)) ∧
    Day05.IntMachine.run 1 ⟨0, [99], 0, []⟩ true = some (.ok [99]) := by
  have hall := c9_halt_not_failure 0 ⟨0, [99], []⟩ false false [] ⟨0, [99], 0, []⟩
  exact ⟨(c9_halt_not_failure 1 ⟨0, [99], []⟩ false false [] ⟨0, [99], 0, []⟩).1,
    hall.2.1 (by decide), (c9_halt_not_failure 0 ⟨0, [99], []⟩ true false []
      ⟨0, [99], 0, []⟩).2.2.2 (by decide)⟩

/-- C10: a parameter-mode digit other than `0` or `1` makes
`ParameterMode::from_opcode` hit `unimplemented!()` — a panic, not a
recoverable decode error — in day05 and day07 alike, so decoding is not
total over arbitrary cells even though an unknown operation kind is
reported as a recoverable `InvalidInstruction` machine error. -/
theorem c10_mode_digit_panics :
    ∀ (opcode position u : Nat),
      2 ≤ opcode / 10 ^ (position + 2) % 10 →
      (Day05.ParameterMode.from_opcode opcode position =
          .error (.panicked .unimplementedMode) ∧
        Day07.ParameterMode.from_opcode opcode position =
          .error (.panicked .unimplementedMode)) ∧
      (u % 100 ∉ ([1, 2, 3, 4, 5, 6, 7, 8, 99] : List Nat) →
        Day05.InstructionType.from_opcode u = .error (.err (.invalidInstruction u))) := by
  intro opcode position u h
  exact ⟨⟨Day05.d5_mode_panics h, Day07.d7_mode_panics h⟩,
    fun hu => Day05.from_opcode_invalid hu⟩

/-- C10 witness: opcode value `203` has mode digit `2` for operand 0 and
panics in both variants, while the unknown operation kind `0` is reported
as a recoverable invalid-instruction error. -/
theorem c10_mode_digit_panics_witness :
    (Day05.ParameterMode.from_opcode 203 0 = .error (.panicked .unimplementedMode) ∧
      Day07.ParameterMode.from_opcode 203 0 = .error (.panicked .unimplementedMode)) ∧
    Day05.InstructionType.from_opcode 0 = .error (.err (.invalidInstruction 0)) := by
  have hc := c10_mode_digit_panics 203 0 0 (by decide)
  exact ⟨hc.1, hc.2 (by decide)⟩
